import Mathlib

set_option maxRecDepth 8000

/-!
# Verification of the comfyui-Banana-API-2 batch-generation pipeline

Shallow embedding of the resilient concurrent batch-generation pipeline of
`custom_nodes/comfyui-Banana-API-2` (files `api_client.py`, `task_runner.py`,
`image_codec.py`, `Gemini_Imagen_Generator.py`), together with proofs of the
specification claims about it.

Modelling conventions:
* Python `float` durations and timeouts are modelled as exact rationals `ℚ`;
  wall-clock time is a logical clock that starts at `0` when `send_request`
  captures `global_start` and advances by the duration of each network call
  and by each backoff sleep.
* Python strings are modelled by Lean `String`; the Python primitives
  `s[:n]`, `s.strip()`, `s.lower()`, `s.upper()` and `sub in s` are embedded
  as `pyTake`, `pyStrip`, `pyLower`, `pyUpper`, `pyContains`, all operating on
  the code-point list `String.data` (matching Python's code-point semantics).
* The nondeterministic completion order of thread-pool futures is an explicit
  parameter (a permutation of the submitted tasks); cooperative interruption
  is not exercised by any claim and the embedding models uninterrupted runs.
* Fallible code returns `Except`/`Option`; a raised Python exception that
  escapes a function is an `Except.error`.
-/

/-! ## Python string primitives -/

/-- Python `s[:n]` (slice by code points). -/
def pyTake (n : ℕ) (s : String) : String := String.mk (s.data.take n)

/-- Python `s.strip()`: remove leading and trailing whitespace. -/
def pyStrip (s : String) : String :=
  String.mk (((s.data.dropWhile Char.isWhitespace).reverse.dropWhile
      Char.isWhitespace).reverse)

/-- Python `s.lower()` (adequate for the ASCII patterns used by the code). -/
def pyLower (s : String) : String := String.mk (s.data.map Char.toLower)

/-- Python `s.upper()` (adequate for the ASCII size labels used by the code). -/
def pyUpper (s : String) : String := String.mk (s.data.map Char.toUpper)

/-- Python `sub in s`: substring containment. -/
def listInfixOf (sub : List Char) : List Char → Bool
  | [] => decide (sub = [])
  | c :: cs => sub.isPrefixOf (c :: cs) || listInfixOf sub cs

/-- Python `sub in s` on strings. -/
def pyContains (sub s : String) : Bool := listInfixOf sub.data s.data

/-! ## `GeminiApiClient._summarize_error_response` (api_client.py 296-322)

An HTTP error response is modelled by its status code, the result of
`response.json()` and its `response.text`.  A payload on which the Python
block raises midway (e.g. a non-string `error.message`) behaves exactly like
a JSON parse failure (both fall through to the `response.text` branch), so it
is modelled by `parseError`. -/

/-- Result of `response.json()` as consumed by `_summarize_error_response`:
`dict errObj topMessage` is a JSON object whose `"error"` key holds an object
with the given optional `"message"` string (`errObj = none` when `"error"` is
absent or not an object) and whose top-level `"message"` key holds the given
string when present. -/
inductive RespJson where
  | parseError
  | notDict
  | dict (errObj : Option (Option String)) (topMessage : Option String)
deriving DecidableEq

/-- An HTTP response as consumed by the error paths of `send_request`. -/
structure ApiResponse where
  status : ℕ
  json : RespJson
  text : String
deriving DecidableEq

/-- The fallback text for an empty body (`"无响应内容"`). -/
def noResponseText : String := "无响应内容"

/-- The fixed user-facing insufficient-balance message. -/
def balanceMessage : String := "余额不足：账户额度不足以完成本次请求，请充值后重试"

/-- Embedding of `GeminiApiClient._summarize_error_response`. -/
def summarize_error_response (response : Option ApiResponse) : String :=
  match response with
  | none => noResponseText
  | some r =>
    let body := if r.text = "" then noResponseText else r.text
    match r.json with
    | .dict errObj topMessage =>
      let fromError : Option String :=
        match errObj with
        | some em =>
          let message := pyStrip (em.getD "")
          let normalized := pyLower message
          if pyContains "token quota" normalized && pyContains "not enough" normalized then
            some balanceMessage
          else if message ≠ "" then some (pyTake 300 message)
          else none
        | none => none
      match fromError with
      | some s => s
      | none =>
        match topMessage with
        | some m => if pyStrip m ≠ "" then pyTake 300 (pyStrip m) else pyTake 300 body
        | none => pyTake 300 body
    | _ => pyTake 300 body

/-! ## `GeminiApiClient._resolve_timeout` (api_client.py 274-294) -/

/-- Class-level defaults of `GeminiApiClient`. -/
def DEFAULT_CONNECT_TIMEOUT : ℚ := 15

/-- Embedding of `_DEFAULT_READ_TIMEOUT`. -/
def DEFAULT_READ_TIMEOUT : ℚ := 420

/-- An element of a 2-element `timeout` tuple/list: Python `None`, a number,
or a value on which `float()` raises (e.g. a non-numeric string). -/
inductive TimeoutElem where
  | noneVal
  | num (x : ℚ)
  | notNum
deriving DecidableEq

/-- The `timeout` argument of `send_request`: a 2-element tuple/list, a
number (`int`/`float`, with `bool` counting as a number), or any other value
(`None`, a string, a wrong-length tuple, ...) which falls to the default
branch. -/
inductive TimeoutArg where
  | scalar (x : ℚ)
  | pair (a b : TimeoutElem)
  | malformed
deriving DecidableEq

/-- Python truthiness of a tuple element (`if timeout[0]`). -/
def elemTruthy : TimeoutElem → Bool
  | .noneVal => false
  | .num x => decide (x ≠ 0)
  | .notNum => true

/-- Python `float()` on a tuple element; raises on non-numeric values. -/
def elemFloat : TimeoutElem → Except String ℚ
  | .num x => .ok x
  | .noneVal => .error "TypeError"
  | .notNum => .error "ValueError"

/-- Embedding of `GeminiApiClient._resolve_timeout`: returns
`(connect_timeout, read_timeout)` with `none` = unlimited read. -/
def resolve_timeout (timeout : TimeoutArg) : Except String (ℚ × Option ℚ) := do
  let cr : ℚ × Option ℚ ←
    match timeout with
    | .pair a b => do
        let connect : ℚ ←
          if elemTruthy a then elemFloat a else pure DEFAULT_CONNECT_TIMEOUT
        let read : Option ℚ ←
          match b with
          | .noneVal => pure none
          | _ => do
              let v : ℚ ←
                if elemTruthy b then elemFloat b else pure DEFAULT_READ_TIMEOUT
              pure (some v)
        pure (connect, read)
    | .scalar x =>
        if 0 < x then pure (x, some x)
        else pure (DEFAULT_CONNECT_TIMEOUT, some DEFAULT_READ_TIMEOUT)
    | .malformed => pure (DEFAULT_CONNECT_TIMEOUT, some DEFAULT_READ_TIMEOUT)
  pure (max 1 cr.1, cr.2.map (max 5))

/-! ## `GeminiApiClient.send_request` (api_client.py 349-538)

The retry loop is embedded as a recursion over the remaining attempt budget.
One network call is one `Attempt`: its wall-clock `duration` and the
`NetEvent` it produces.  `env k` gives the behaviour of the network on the
`k`-th attempt (attempts are numbered from 1, as in the Python `range`).
The embedding records every issued network call together with the
`(connect, read)` timeout pair it was given, so that the timeout-budget
claims can speak about the calls actually made.

`NetEvent.transport` models an exception caught by
`except (requests.Timeout, requests.ConnectionError)`: the four booleans are
`isinstance(exc, requests.Timeout)`, `isinstance(exc, requests.ConnectTimeout)`,
`isinstance(exc, requests.ConnectionError)` and the keyword test
(`"remote end closed" in str(exc).lower()` et al.); `label` is
`type(exc).__name__`.  `otherRequest` is an exception caught by
`except requests.RequestException`.  The body of a 2xx/3xx response is
abstracted away (only its status is kept). -/

/-- Embedding of `_RETRYABLE_STATUS`. -/
def RETRYABLE_STATUS : List ℕ := [408, 409, 425, 429, 500, 502, 503, 504]

/-- Embedding of `_MAX_RETRIES`. -/
def MAX_RETRIES : ℕ := 2

/-- Embedding of `_BASE_BACKOFF` (seconds). -/
def BASE_BACKOFF : ℚ := 2

/-- What the network does on one attempt. -/
inductive NetEvent where
  | http (status : ℕ) (resp : ApiResponse)
  | transport (isTimeout isConnectTimeout isConnectionError remoteKw : Bool)
      (label : String)
  | otherRequest (label : String) (status : Option ℕ)
deriving DecidableEq

/-- One network attempt: how long the call blocked and what it produced. -/
structure Attempt where
  duration : ℚ
  event : NetEvent
deriving DecidableEq

/-- A network call actually issued, with the timeout pair passed to
`session.post` (`read = none` is unlimited). -/
structure IssuedCall where
  connect : ℚ
  read : Option ℚ
deriving DecidableEq

/-- Embedding of `last_error_phase` values. -/
inductive Phase where
  | connect
  | read
deriving DecidableEq

/-- The loop-carried error bookkeeping (`last_error_phase` and
`type(last_error).__name__`). -/
structure LoopState where
  phase : Option Phase
  label : Option String
deriving DecidableEq

/-- The observable result of `send_request`: either the parsed 2xx/3xx
response (abstracted to its status) or one of the `RuntimeError`s the code
raises.  Each error constructor keeps exactly the data interpolated into the
corresponding message string. -/
inductive SendOutcome where
  | ok (status : ℕ)
  | budgetExhausted (elapsed limit : ℚ)
  | readTimeoutTerminal (duration : ℚ)
  | remoteDisconnectTerminal (duration : ℚ)
  | readPhaseFallbackTerminal
  | httpTerminal (status : ℕ) (summary : String)
  | requestExceptionTerminal (label : String) (status : Option ℕ)
  | connectExhausted (label : String)
  | readExhausted (label : String)
  | retriesExhausted (label : String)
deriving DecidableEq

/-- The raises after the `for` loop (api_client.py 523-538). -/
def afterLoop (st : LoopState) : SendOutcome :=
  let lbl := st.label.getD "未知错误"
  match st.phase with
  | some .connect => .connectExhausted lbl
  | some .read => .readExhausted lbl
  | none => .retriesExhausted lbl

/-- The retry loop of `send_request` (api_client.py 392-521).  Arguments:
connect timeout `c`, global read timeout `R`, `effective_max_retries` `N`,
network behaviour `env`, remaining loop iterations (the fuel equals
`N + 1 - k` on every reachable call), current attempt number `k`, clock `t`
(`time.time() - global_start`), current `attempt_delay` `δ`, and the error
bookkeeping `st`.  Returns the outcome and the list of issued calls. -/
def sendLoop (c : ℚ) (R : Option ℚ) (N : ℕ) (env : ℕ → Attempt) :
    ℕ → ℕ → ℚ → ℚ → LoopState → SendOutcome × List IssuedCall
  | 0, _, _, _, st => (afterLoop st, [])
  | fuel + 1, k, t, δ, st =>
    let a := env k
    let tAfter := t + a.duration
    -- fall-through to the bottom-of-loop backoff sleep, then next iteration
    let continueRetry : LoopState → SendOutcome × List IssuedCall := fun st' =>
      if k < N then
        sendLoop c R N env fuel (k + 1) (tAfter + δ) (δ * (3 / 2)) st'
      else
        (afterLoop st', [])
    let attempt : Option ℚ → SendOutcome × List IssuedCall := fun remaining =>
      let inner : SendOutcome × List IssuedCall :=
        match a.event with
        | .http s resp =>
          if s ∈ RETRYABLE_STATUS ∧ k < N then
            continueRetry { st with label := some "HTTPError" }
          else if 400 ≤ s ∧ s < 600 then
            (.httpTerminal s (summarize_error_response (some resp)), [])
          else
            (.ok s, [])
        | .transport isTimeout isConnectTimeout isConnectionError remoteKw lbl =>
          let remoteClosed := isConnectionError && remoteKw
          let exceededConnectBudget := decide (c + 1 < a.duration)
          let isReadTimeout := isTimeout && !isConnectTimeout && !isConnectionError
          if isReadTimeout then
            (.readTimeoutTerminal a.duration, [])
          else if remoteClosed || exceededConnectBudget then
            (.remoteDisconnectTerminal a.duration, [])
          else if isConnectTimeout || isConnectionError then
            continueRetry { phase := some .connect, label := some lbl }
          else
            (.readPhaseFallbackTerminal, [])
        | .otherRequest lbl status => (.requestExceptionTerminal lbl status, [])
      (inner.1, { connect := c, read := remaining } :: inner.2)
    match R with
    | some r =>
      if r - t ≤ 0 then (.budgetExhausted t r, [])
      else attempt (some (r - t))
    | none => attempt none

/-- Embedding of `effective_max_retries` (api_client.py 379-383): `max_retries` when it is
an `int ≥ 1`, else `_MAX_RETRIES`. -/
def effectiveMaxRetries (max_retries : Option ℤ) : ℕ :=
  match max_retries with
  | some m => if 1 ≤ m then m.toNat else MAX_RETRIES
  | none => MAX_RETRIES

/-- Embedding of `GeminiApiClient.send_request` after URL/session/headers setup: resolves
the timeout argument and runs the retry loop from attempt 1, clock 0 and
backoff `_BASE_BACKOFF`. -/
def send_request (timeout : TimeoutArg) (max_retries : Option ℤ)
    (env : ℕ → Attempt) : Except String (SendOutcome × List IssuedCall) := do
  let (connect, readGlobal) ← resolve_timeout timeout
  let N := effectiveMaxRetries max_retries
  pure (sendLoop connect readGlobal N env N 1 0 BASE_BACKOFF ⟨none, none⟩)

/-! ## `ImageCodec` encode cache (image_codec.py 29-76)

The `OrderedDict` is embedded as an association list ordered from
least-recently-used (front, what `popitem(last=False)` removes) to
most-recently-used (back, where `move_to_end` puts a key).  Keys produced by
`_tensor_cache_key` are `Option String` (`none` when hashing raised); the
Python falsiness tests `if not cache_key` / `if not value` treat `none` and
the empty string as falsy. -/

/-- The cache state: `(key, value)` bindings, LRU first. -/
abbrev EncCache := List (String × String)

/-- Embedding of `ImageCodec.__init__`: `self._cache_size = max(1, cache_size)`. -/
def cacheCapacity (cache_size : ℤ) : ℕ := (max 1 cache_size).toNat

/-- Embedding of `ImageCodec._get_cached_image_b64`: returns the cached value and the
cache after the `move_to_end` of a hit. -/
def get_cached_image_b64 (c : EncCache) (cache_key : Option String) :
    Option String × EncCache :=
  match cache_key with
  | none => (none, c)
  | some k =>
    if k = "" then (none, c)
    else
      match c.lookup k with
      | none => (none, c)
      | some v => (some v, (c.filter fun p => p.1 ≠ k) ++ [(k, v)])

/-- Embedding of `ImageCodec._set_cached_image_b64`: insert as most-recently-used, then
drop least-recently-used entries while the size exceeds the capacity. -/
def set_cached_image_b64 (cap : ℕ) (c : EncCache) (cache_key : Option String)
    (value : String) : EncCache :=
  match cache_key with
  | none => c
  | some k =>
    if k = "" ∨ value = "" then c
    else
      let c1 := (c.filter fun p => p.1 ≠ k) ++ [(k, value)]
      c1.drop (c1.length - cap)

/-! ## `ImageCodec.prepare_input_images` (image_codec.py 100-136)

`tensor_to_base64` (PNG encoding), `extract_numpy_images` (tensor → numpy
samples) and the SHA-1 of `_tensor_cache_key` are abstracted as parameters
`enc`, `extract` and `hashFn` over abstract sample/tensor types; everything
else (the cache interplay and the iteration order) is the Python control
flow. -/

/-- The inner `for sample in self.extract_numpy_images(tensor)` loop body of
`prepare_input_images`, folded over a sample list. -/
def prepSamples {S : Type} (hashFn : S → Option String) (enc : S → String)
    (cap : ℕ) : List S → List String → EncCache → List String × EncCache
  | [], acc, c => (acc, c)
  | s :: ss, acc, c =>
    let key := hashFn s
    let g := get_cached_image_b64 c key
    match g.1 with
    | some v => prepSamples hashFn enc cap ss (acc ++ [v]) g.2
    | none =>
      let v := enc s
      prepSamples hashFn enc cap ss (acc ++ [v]) (set_cached_image_b64 cap g.2 key v)

/-- The outer `for tensor in tensors` loop of `prepare_input_images`
(`None` tensors are skipped). -/
def prepTensors {S T : Type} (hashFn : S → Option String) (enc : S → String)
    (extract : T → List S) (cap : ℕ) :
    List (Option T) → List String → EncCache → List String × EncCache
  | [], acc, c => (acc, c)
  | none :: ts, acc, c => prepTensors hashFn enc extract cap ts acc c
  | some t :: ts, acc, c =>
    let r := prepSamples hashFn enc cap (extract t) acc c
    prepTensors hashFn enc extract cap ts r.1 r.2

/-- Embedding of `ImageCodec.prepare_input_images`. -/
def prepare_input_images {S T : Type} (hashFn : S → Option String)
    (enc : S → String) (extract : T → List S) (cap : ℕ)
    (tensors : List (Option T)) (c : EncCache) : List String × EncCache :=
  if tensors.isEmpty then ([], c)
  else prepTensors hashFn enc extract cap tensors [] c

/-- Modelled from the spec's reading of the same code, for the refinement
claim: encode every extracted sample directly with `tensor_to_base64`,
without any cache. -/
def prepare_input_images_direct {S T : Type} (enc : S → String)
    (extract : T → List S) (tensors : List (Option T)) : List String :=
  (tensors.reduceOption.flatMap extract).map enc

/-! ## `ImageCodec.base64_to_tensor_single` / `base64_to_tensor_parallel`
(image_codec.py 138-197)

A payload either decodes to an image of some height/width (`pix` abstracts
the pixel contents) or is corrupt (base64/PIL raises).  `np.stack` requires
all images to share one shape and raises otherwise; the result tensor is
modelled as the stacked list of images. -/

/-- An encoded payload handed to the decoder. -/
inductive Payload where
  | valid (height width : ℕ) (pix : ℕ)
  | corrupt
deriving DecidableEq

/-- A decoded numpy image (H, W, 3). -/
structure NpImage where
  height : ℕ
  width : ℕ
  pix : ℕ
deriving DecidableEq

/-- The deterministic placeholder `np.zeros((64, 64, 3))`. -/
def placeholderImage : NpImage := ⟨64, 64, 0⟩

/-- Embedding of `ImageCodec.base64_to_tensor_single`: decode failure is caught and
replaced by the placeholder. -/
def base64_to_tensor_single : Payload → NpImage
  | .valid h w p => ⟨h, w, p⟩
  | .corrupt => placeholderImage

/-- Embedding of `np.stack`: all input arrays must have the same shape. -/
def npStack (l : List NpImage) : Except String (List NpImage) :=
  match l with
  | [] => .error "need at least one array to stack"
  | x :: xs =>
    if xs.all fun y => y.height == x.height && y.width == x.width then
      .ok (x :: xs)
    else
      .error "all input arrays must have the same shape"

/-- Embedding of `ImageCodec.base64_to_tensor_parallel` on an uninterrupted run: every
future settles, `results[index] = future.result()` keeps payload order, and
the filled slots are stacked.  (The worker-pool sizing affects scheduling
only; `base64_to_tensor_single` never raises, so the per-future `except`
branch that writes zeros is equivalent to the placeholder it already
returned.) -/
def base64_to_tensor_parallel (base64_strings : List Payload) :
    Except String (List NpImage) :=
  if base64_strings.isEmpty then .ok [placeholderImage]
  else npStack (base64_strings.map base64_to_tensor_single)

/-! ## `GeminiApiClient.create_request_data` (api_client.py 59-162) -/

/-- The aspect alias table of the client (an identity table on the listed keys). -/
def ASPECT_ALIASES : List (String × String) :=
  [("1:1", "1:1"), ("2:3", "2:3"), ("3:2", "3:2"), ("3:4", "3:4"),
   ("4:3", "4:3"), ("4:5", "4:5"), ("5:4", "5:4"), ("9:16", "9:16"),
   ("16:9", "16:9"), ("21:9", "21:9")]

/-- The aspect normalizer of the client (the empty string is the falsy
string input). -/
def normalize_aspect (a : String) : Option String :=
  if a = "" ∨ pyLower a = "auto" then none
  else
    let normalized := pyStrip a
    some ((ASPECT_ALIASES.lookup normalized).getD normalized)

/-- The request body built by `create_request_data`, keeping the fields the
claims can observe (`contents`/`generationConfig` dictionary plumbing is
represented structurally). -/
structure RequestBody where
  promptText : Option String
  images : List String
  topP : ℚ
  seed : Option ℤ
  aspect : Option String
  imageSize : Option String
deriving DecidableEq

/-- Embedding of `GeminiApiClient.create_request_data`: raises `ValueError` when the
stripped prompt is empty and there are no input images. -/
def create_request_data (prompt : String) (seed : ℤ) (aspect : String)
    (top_p : ℚ) (input_images_b64 : List String) (image_size : Option String) :
    Except String RequestBody :=
  let prompt_text := pyStrip prompt
  if prompt_text = "" ∧ input_images_b64 = [] then
    .error "请输入提示词或提供至少一张参考图像"
  else
    let param_suffix_parts :=
      (match image_size with
       | some sz =>
         if sz ≠ "" then
           let normalized_size := pyUpper (pyStrip sz)
           if normalized_size ∈ ["1K", "2K", "4K"] then
             ["分辨率: " ++ normalized_size]
           else []
         else []
       | none => [])
      ++ (match normalize_aspect aspect with
          | some asp => ["比例: " ++ asp]
          | none => [])
    let prompt_text :=
      if prompt_text ≠ "" ∧ param_suffix_parts ≠ [] then
        prompt_text ++ " [" ++ String.intercalate ", " param_suffix_parts ++ "]"
      else prompt_text
    let imageSizeCfg : Option String :=
      match image_size with
      | some sz =>
        if sz ≠ "" then
          let normalized := pyUpper (pyStrip sz)
          if normalized ∈ ["1K", "2K", "4K"] then some normalized
          else if normalized = "无" then none
          else some "2K"
        else some "2K"
      | none => some "2K"
    .ok { promptText := if prompt_text ≠ "" then some prompt_text else none
          images := input_images_b64.filter (· ≠ "")
          topP := top_p
          seed := if 0 ≤ seed then some seed else none
          aspect := normalize_aspect aspect
          imageSize := imageSizeCfg }

/-! ## `BananaImageNode.generate_single_image` and the batch runner
(Gemini_Imagen_Generator.py 169-304, task_runner.py 26-147)

The network side of one job (`send_request` + `extract_content`) is
abstracted into a `JobNet` outcome; the request either raises a message or
yields extracted image payloads and text.  The returned `Bool` records
whether the job reached its network call (`send_request` was invoked) — it
is bookkeeping for the claims, not data of the Python result dict. -/

/-- The outcome of one job's `send_request` + `extract_content`. -/
inductive JobNet where
  | raised (msg : String)
  | responded (images : List Payload) (text : String)
deriving DecidableEq

/-- One job's result dict (a failure dict has no `text` key; reading it
yields `None`, modelled as `""` here since only successes' text is used). -/
structure JobResult where
  index : ℕ
  success : Bool
  error : Option String
  imageCount : ℕ
  text : String
  seed : ℤ
deriving DecidableEq

/-- Embedding of `BananaImageNode._build_failure_result`. -/
def build_failure_result (index : ℕ) (seed : ℤ) (error_msg : String) :
    JobResult :=
  { index := index, success := false, error := some error_msg,
    imageCount := 0, text := "", seed := seed }

/-- Embedding of `BananaImageNode.generate_single_image` on an uninterrupted run: build
the request (a `ValueError` here is caught by the outer `except` and
becomes a failure result, with no network call), send it, extract, decode.
Every branch tags the result with the job's own index `i`. -/
def generate_single_image (i : ℕ) (seed : ℤ) (prompt : String)
    (aspect : String) (image_size : Option String) (top_p : ℚ)
    (input_images_b64 : List String) (net : JobNet) : JobResult × Bool :=
  match create_request_data prompt seed aspect top_p input_images_b64 image_size with
  | .error msg => (build_failure_result i seed (pyTake 200 msg), false)
  | .ok _ =>
    match net with
    | .raised msg => (build_failure_result i seed (pyTake 200 msg), true)
    | .responded images text =>
      if images.isEmpty then
        ({ index := i, success := true, error := none, imageCount := 0,
           text := text, seed := seed }, true)
      else
        match base64_to_tensor_parallel images with
        | .error msg => (build_failure_result i seed (pyTake 200 msg), true)
        | .ok stacked =>
          ({ index := i, success := true, error := none,
             imageCount := stacked.length, text := text, seed := seed }, true)

/-- The shared result-collection loop of `BatchGenerationRunner`: process
settled jobs one at a time in the given order, appending each result; when
`continue_on_error` is false, stop right after the first failed result
(remaining futures are cancelled).  With `continue_on_error = true` this is
both `_run_parallel` (over the completion order) and `_run_sequential`
(over the task order). -/
def collect_results {τ : Type} (worker : τ → JobResult × Bool)
    (continue_on_error : Bool) : List τ → List (JobResult × Bool)
  | [] => []
  | t :: ts =>
    let r := worker t
    if !continue_on_error && !r.1.success then [r]
    else r :: collect_results worker continue_on_error ts

/-- Embedding of `BatchGenerationRunner.run` on an uninterrupted run: empty batches give
`[]`; the parallel path (more than one worker and more than one task)
processes results in the futures' completion order `completed`; otherwise
tasks run sequentially in submission order. -/
def BatchGenerationRunner_run {τ : Type} (tasks : List τ)
    (worker : τ → JobResult × Bool) (batch_size actual_workers : ℕ)
    (continue_on_error : Bool) (completed : List τ) :
    List (JobResult × Bool) :=
  if batch_size = 0 then []
  else if 1 < actual_workers ∧ 1 < batch_size then
    collect_results worker continue_on_error completed
  else collect_results worker continue_on_error tasks

/-- Sort key order of `results.sort(key=lambda x: x['index'])`. -/
def jobIndexLe (a b : JobResult) : Prop := a.index ≤ b.index

instance : DecidableRel jobIndexLe := fun a b => Nat.decLe a.index b.index

instance : IsTotal JobResult jobIndexLe := ⟨fun a b => Nat.le_total a.index b.index⟩

instance : IsTrans JobResult jobIndexLe := ⟨fun _ _ _ h1 h2 => Nat.le_trans h1 h2⟩

/-- Embedding of `BananaImageNode.generate_images` from task construction to the sorted
result list (Gemini_Imagen_Generator.py 407-493): tasks are indices
`0..batch_size-1` with per-index seeds, `continue_on_error` is the constant
`True` of the source, an empty result list takes the early error-canvas
return (`none`), otherwise the results are sorted ascending by `index`.
The second component counts the jobs that issued their network call. -/
def generate_images (batch_size : ℕ) (prompt : String) (aspect : String)
    (image_size : Option String) (top_p : ℚ) (seedOf : ℕ → ℤ)
    (input_images_b64 : List String) (net : ℕ → JobNet)
    (actual_workers : ℕ) (completed : List ℕ) :
    Option (List JobResult) × ℕ :=
  let tasks := List.range batch_size
  let worker := fun i =>
    generate_single_image i (seedOf i) prompt aspect image_size top_p
      input_images_b64 (net i)
  let raw := BatchGenerationRunner_run tasks worker batch_size actual_workers
    true completed
  let results := raw.map Prod.fst
  let networkCalls := (raw.filter fun r => r.2).length
  if results.isEmpty then (none, networkCalls)
  else (some (List.insertionSort jobIndexLe results), networkCalls)

/-- The cache invariant: every binding was produced by hashing some sample
and encoding it.  (Every cache reachable from the empty one satisfies it.) -/
def cacheConsistent {S : Type} (hashFn : S → Option String) (enc : S → String)
    (c : EncCache) : Prop :=
  ∀ kv ∈ c, ∃ s, hashFn s = some kv.1 ∧ enc s = kv.2

/-- The configuration-error message of `create_request_data`. -/
def configErrorMessage : String := "请输入提示词或提供至少一张参考图像"

/-- An upstream-derived error message (as sanitized by
`_summarize_error_response`, it passes through verbatim since it does not
match the balance pattern and is shorter than 300 characters). -/
def upstreamSummary : String := "quota exceeded for org-1234 at gateway node 7"

/-- A retryable 503 whose body carries the upstream message. -/
def cexResp : ApiResponse := ⟨503, .dict (some (some upstreamSummary)) none, "raw"⟩

/-- A network that answers 503 to every attempt after 1 second. -/
def cexEnv : ℕ → Attempt := fun _ => ⟨1, .http 503 cexResp⟩

/-! ## Theorems -/

theorem pyTake_length_le (n : ℕ) (s : String) : (pyTake n s).length ≤ n := by
  have h : (pyTake n s).length = (s.data.take n).length := rfl
  rw [h, List.length_take]
  exact min_le_left _ _

/-- Flattened form of `summarize_error_response` on a JSON object carrying an
`error` object. -/
theorem summarize_dict_some (st : ℕ) (tx : String) (em top : Option String) :
    summarize_error_response (some ⟨st, .dict (some em) top, tx⟩)
      = (if (pyContains "token quota" (pyLower (pyStrip (em.getD ""))) &&
             pyContains "not enough" (pyLower (pyStrip (em.getD "")))) = true then
           balanceMessage
         else if pyStrip (em.getD "") ≠ "" then
           pyTake 300 (pyStrip (em.getD ""))
         else
           match top with
           | some m =>
             if pyStrip m ≠ "" then pyTake 300 (pyStrip m)
             else pyTake 300 (if tx = "" then noResponseText else tx)
           | none => pyTake 300 (if tx = "" then noResponseText else tx)) := by
  dsimp only [summarize_error_response]
  by_cases hA : (pyContains "token quota" (pyLower (pyStrip (em.getD ""))) &&
      pyContains "not enough" (pyLower (pyStrip (em.getD "")))) = true
  · rw [if_pos hA, if_pos hA]
  · rw [if_neg hA, if_neg hA]
    by_cases hne : pyStrip (em.getD "") ≠ ""
    · rw [if_pos hne, if_pos hne]
    · rw [if_neg hne, if_neg hne]

/-- Every summary is the no-content constant, the fixed balance string, or a
300-character truncation of some string. -/
theorem summarize_cases (r : Option ApiResponse) :
    summarize_error_response r = noResponseText
    ∨ summarize_error_response r = balanceMessage
    ∨ ∃ s, summarize_error_response r = pyTake 300 s := by
  rcases r with _ | ⟨st, j, tx⟩
  · exact Or.inl rfl
  · rcases j with _ | _ | ⟨errObj, top⟩
    · exact Or.inr (Or.inr ⟨_, rfl⟩)
    · exact Or.inr (Or.inr ⟨_, rfl⟩)
    · rcases errObj with _ | em
      · rcases top with _ | m
        · exact Or.inr (Or.inr ⟨_, rfl⟩)
        · dsimp only [summarize_error_response]
          by_cases hm : pyStrip m ≠ ""
          · rw [if_pos hm]
            exact Or.inr (Or.inr ⟨_, rfl⟩)
          · rw [if_neg hm]
            exact Or.inr (Or.inr ⟨_, rfl⟩)
      · rw [summarize_dict_some]
        by_cases hA : (pyContains "token quota" (pyLower (pyStrip (em.getD ""))) &&
            pyContains "not enough" (pyLower (pyStrip (em.getD "")))) = true
        · rw [if_pos hA]
          exact Or.inr (Or.inl rfl)
        · rw [if_neg hA]
          by_cases hne : pyStrip (em.getD "") ≠ ""
          · rw [if_pos hne]
            exact Or.inr (Or.inr ⟨_, rfl⟩)
          · rw [if_neg hne]
            rcases top with _ | m
            · exact Or.inr (Or.inr ⟨_, rfl⟩)
            · dsimp only
              by_cases hm : pyStrip m ≠ ""
              · rw [if_pos hm]
                exact Or.inr (Or.inr ⟨_, rfl⟩)
              · rw [if_neg hm]
                exact Or.inr (Or.inr ⟨_, rfl⟩)

/-- C8: for every non-2xx HTTP response that becomes terminal, the summary
produced by `_summarize_error_response` is (1) the fixed insufficient-balance
string whenever the JSON `error.message` contains both `"token quota"` and
`"not enough"` case-insensitively; (2) always at most 300 characters;
(3) otherwise the (stripped) error message truncated to 300 characters when
one is present; and (4) the raw response body truncated to 300 characters
when JSON parsing fails.  The summary is computed from the response body
alone — the embedding's `summarize_error_response` does not receive the
upstream URL or request identifiers at all. -/
theorem summarize_error_response_spec :
    (∀ (r : ApiResponse) (em : Option String) (top : Option String),
      r.json = .dict (some em) top →
      pyContains "token quota" (pyLower (pyStrip (em.getD ""))) = true →
      pyContains "not enough" (pyLower (pyStrip (em.getD ""))) = true →
      summarize_error_response (some r) = balanceMessage)
    ∧ (∀ r : Option ApiResponse, (summarize_error_response r).length ≤ 300)
    ∧ (∀ (r : ApiResponse) (em : Option String) (top : Option String),
      r.json = .dict (some em) top →
      ¬ (pyContains "token quota" (pyLower (pyStrip (em.getD ""))) = true ∧
         pyContains "not enough" (pyLower (pyStrip (em.getD ""))) = true) →
      pyStrip (em.getD "") ≠ "" →
      summarize_error_response (some r) = pyTake 300 (pyStrip (em.getD "")))
    ∧ (∀ r : ApiResponse, r.json = .parseError →
      summarize_error_response (some r)
        = pyTake 300 (if r.text = "" then noResponseText else r.text)) := by
  refine ⟨?_, ?_, ?_, ?_⟩
  · rintro ⟨st, j, tx⟩ em top hj h1 h2
    cases hj
    rw [summarize_dict_some, if_pos (by rw [h1, h2]; rfl)]
  · intro r
    rcases summarize_cases r with h | h | ⟨s, h⟩ <;> rw [h]
    · decide
    · decide
    · exact pyTake_length_le 300 s
  · rintro ⟨st, j, tx⟩ em top hj hq hne
    cases hj
    rw [summarize_dict_some,
      if_neg (fun hAB => hq ((Bool.and_eq_true _ _).mp hAB)), if_pos hne]
  · rintro ⟨st, j, tx⟩ hj
    cases hj
    rfl

/-- Witness for C8 at concrete responses: a quota-exhaustion message maps to
the fixed balance string, an ordinary error message is truncated verbatim,
and a non-JSON body falls back to the truncated text. -/
theorem summarize_error_response_spec_witness :
    summarize_error_response
      (some ⟨402, .dict (some (some "Token Quota is Not Enough for this org")) none, "b"⟩)
      = balanceMessage
    ∧ summarize_error_response
      (some ⟨500, .dict (some (some " upstream broke ")) none, "b"⟩)
      = pyTake 300 (pyStrip " upstream broke ")
    ∧ summarize_error_response (some ⟨500, .parseError, "raw body"⟩)
      = pyTake 300 "raw body" := by
  refine ⟨summarize_error_response_spec.1 _ _ _ rfl (by decide) (by decide),
    summarize_error_response_spec.2.2.1
      ⟨500, .dict (some (some " upstream broke ")) none, "b"⟩
      (some " upstream broke ") none rfl (by decide) (by decide), ?_⟩
  have h := summarize_error_response_spec.2.2.2 ⟨500, .parseError, "raw body"⟩ rfl
  simpa using h

/-- C5 (code bug): `base64_to_tensor_parallel` substitutes the fixed 64×64
placeholder for a corrupt payload, but `np.stack` then requires every image
to have the placeholder's shape.  With one corrupt payload among normal-size
decoded images (first and third conjuncts) the whole batch raises instead of
returning `len(payloads)` images; the claimed behaviour only happens when
the successfully decoded images are themselves 64×64 (second conjunct). -/
theorem decode_pool_fault_isolation_bug :
    base64_to_tensor_parallel [.valid 512 512 7, .corrupt]
      = .error "all input arrays must have the same shape"
    ∧ base64_to_tensor_parallel [.valid 64 64 7, .corrupt]
      = .ok [⟨64, 64, 7⟩, placeholderImage]
    ∧ base64_to_tensor_parallel
        [.valid 1024 1024 1, .valid 1024 1024 2, .valid 1024 1024 3,
         .corrupt, .valid 1024 1024 5]
      = .error "all input arrays must have the same shape" :=
  ⟨rfl, rfl, rfl⟩

theorem lookup_mem : ∀ {c : EncCache} {k v : String}, c.lookup k = some v → (k, v) ∈ c := by
  intro c
  induction c with
  | nil => intro k v h; simp [List.lookup] at h
  | cons p ps ih =>
    intro k v h
    rcases p with ⟨a, b⟩
    by_cases hk : k = a
    · subst hk
      simp only [List.lookup, beq_self_eq_true] at h
      cases h
      exact List.mem_cons_self _ _
    · have hk' : (k == a) = false := beq_eq_false_iff_ne.mpr hk
      simp only [List.lookup, hk'] at h
      exact List.mem_cons_of_mem _ (ih h)

theorem filter_ne_of_not_mem {c : EncCache} {k : String}
    (h : k ∉ c.map Prod.fst) : (c.filter fun p => p.1 ≠ k) = c := by
  apply List.filter_eq_self.mpr
  intro p hp
  simp only [ne_eq, decide_eq_true_eq]
  intro hpk
  exact h (hpk ▸ List.mem_map_of_mem Prod.fst hp)

theorem filter_ne_length {c : EncCache} {k : String}
    (hnd : (c.map Prod.fst).Nodup) (hk : k ∈ c.map Prod.fst) :
    (c.filter fun p => p.1 ≠ k).length + 1 = c.length := by
  induction c with
  | nil => simp at hk
  | cons p ps ih =>
    simp only [List.map_cons, List.nodup_cons] at hnd
    by_cases hpk : p.1 = k
    · rw [List.filter_cons_of_neg (by simp [hpk])]
      rw [filter_ne_of_not_mem (hpk ▸ hnd.1)]
      simp
    · have hk' : k ∈ ps.map Prod.fst := by
        rcases List.mem_cons.mp hk with h | h
        · exact absurd h.symm hpk
        · exact h
      rw [List.filter_cons_of_pos (by simp [hpk])]
      have := ih hnd.2 hk'
      simp only [List.length_cons]
      omega

theorem get_cached_length (c : EncCache) (hnd : (c.map Prod.fst).Nodup)
    (key : Option String) :
    (get_cached_image_b64 c key).2.length = c.length := by
  rcases key with _ | k
  · rfl
  · dsimp only [get_cached_image_b64]
    by_cases hk : k = ""
    · rw [if_pos hk]
    · rw [if_neg hk]
      cases hv : c.lookup k with
      | none => rfl
      | some v =>
        dsimp only
        have hkm : k ∈ c.map Prod.fst :=
          List.mem_map_of_mem Prod.fst (lookup_mem hv)
        have hfl := filter_ne_length hnd hkm
        simp only [List.length_append, List.length_cons, List.length_nil]
        omega

theorem get_cached_hit (c : EncCache) (k v : String)
    (hv : c.lookup k = some v) (hk : k ≠ "") :
    get_cached_image_b64 c (some k)
      = (some v, (c.filter fun p => p.1 ≠ k) ++ [(k, v)]) := by
  dsimp only [get_cached_image_b64]
  rw [if_neg hk, hv]

theorem set_cached_length_le (cap : ℕ) (c : EncCache) (key : Option String)
    (v : String) (hle : c.length ≤ cap) :
    (set_cached_image_b64 cap c key v).length ≤ cap := by
  rcases key with _ | k
  · exact hle
  · dsimp only [set_cached_image_b64]
    by_cases hk : k = "" ∨ v = ""
    · rw [if_pos hk]
      exact hle
    · rw [if_neg hk]
      simp only [List.length_drop, List.length_append, List.length_cons,
        List.length_nil]
      omega

theorem set_cached_evicts_lru (cap : ℕ) (c : EncCache) (k v : String)
    (hlen : c.length = cap) (hnotmem : k ∉ c.map Prod.fst) (hk : k ≠ "")
    (hv : v ≠ "") (hcap : 1 ≤ cap) :
    set_cached_image_b64 cap c (some k) v = c.tail ++ [(k, v)] := by
  dsimp only [set_cached_image_b64]
  rw [if_neg (not_or.mpr ⟨hk, hv⟩), filter_ne_of_not_mem hnotmem]
  have h1 : (c ++ [(k, v)]).length - cap = 1 := by
    simp only [List.length_append, List.length_cons, List.length_nil]
    omega
  rw [h1, List.drop_append_of_le_length (by omega), List.drop_one]

theorem reaccess_protects (cap : ℕ) (c : EncCache) (k v j w : String)
    (hnd : (c.map Prod.fst).Nodup) (hv : c.lookup k = some v) (hk : k ≠ "")
    (hcap : 2 ≤ cap) (hlen : c.length = cap)
    (hj : j ∉ c.map Prod.fst) (hj0 : j ≠ "") (hw : w ≠ "") :
    k ∈ (set_cached_image_b64 cap (get_cached_image_b64 c (some k)).2
      (some j) w).map Prod.fst := by
  rw [get_cached_hit c k v hv hk]
  have hkm : k ∈ c.map Prod.fst :=
    List.mem_map_of_mem Prod.fst (lookup_mem hv)
  have hFlen := filter_ne_length hnd hkm
  have hjF : j ∉ ((c.filter fun p => p.1 ≠ k) ++ [(k, v)]).map Prod.fst := by
    simp only [List.map_append, List.mem_append, List.map_cons, List.map_nil,
      List.mem_singleton]
    rintro (hjf | hjk)
    · rcases List.mem_map.mp hjf with ⟨p, hp, hpj⟩
      exact hj (hpj ▸ List.mem_map_of_mem Prod.fst (List.mem_of_mem_filter hp))
    · exact hj (hjk ▸ hkm)
  dsimp only [set_cached_image_b64]
  rw [if_neg (not_or.mpr ⟨hj0, hw⟩), filter_ne_of_not_mem hjF]
  have h1 : (((c.filter fun p => p.1 ≠ k) ++ [(k, v)]) ++ [(j, w)]).length - cap
      = 1 := by
    simp only [List.length_append, List.length_cons, List.length_nil]
    omega
  rw [h1, List.append_assoc,
    List.drop_append_of_le_length (by omega), List.map_append]
  apply List.mem_append_right
  simp

/-- C6: the encode cache is a bounded LRU map: the capacity is `max(1, n)`
(default 16); a lookup never changes the number of entries and a hit moves
its key to the most-recently-used (back) position; an insertion never leaves
more than `capacity` entries; inserting a fresh key into a full cache evicts
exactly the least-recently-used (front) entry; and re-accessing a key of a
full cache (of capacity ≥ 2) protects it from the eviction caused by the
next fresh insertion. -/
theorem encode_cache_lru (cap : ℕ) (c : EncCache) (k v : String)
    (hnd : (c.map Prod.fst).Nodup) :
    (cacheCapacity 16 = 16 ∧ ∀ z : ℤ, 1 ≤ cacheCapacity z)
    ∧ (∀ key, (get_cached_image_b64 c key).2.length = c.length)
    ∧ (∀ key w, c.length ≤ cap → (set_cached_image_b64 cap c key w).length ≤ cap)
    ∧ (c.lookup k = some v → k ≠ "" →
        (get_cached_image_b64 c (some k)).1 = some v
        ∧ (get_cached_image_b64 c (some k)).2.getLast? = some (k, v))
    ∧ (c.length = cap → k ∉ c.map Prod.fst → k ≠ "" → v ≠ "" → 1 ≤ cap →
        set_cached_image_b64 cap c (some k) v = c.tail ++ [(k, v)])
    ∧ (∀ j w, c.lookup k = some v → k ≠ "" → 2 ≤ cap → c.length = cap →
        j ∉ c.map Prod.fst → j ≠ "" → w ≠ "" →
        k ∈ (set_cached_image_b64 cap (get_cached_image_b64 c (some k)).2
          (some j) w).map Prod.fst) := by
  refine ⟨⟨by decide, ?_⟩, ?_, ?_, ?_, ?_, ?_⟩
  · intro z
    have h : (1 : ℤ) ≤ max 1 z := le_max_left 1 z
    exact Int.toNat_le_toNat h
  · exact get_cached_length c hnd
  · exact fun key w h => set_cached_length_le cap c key w h
  · intro hv hk
    rw [get_cached_hit c k v hv hk]
    exact ⟨rfl, by simp⟩
  · exact fun hlen hnm hk hv hcap =>
      set_cached_evicts_lru cap c k v hlen hnm hk hv hcap
  · exact fun j w hv hk hcap hlen hj hj0 hw =>
      reaccess_protects cap c k v j w hnd hv hk hcap hlen hj hj0 hw

/-- Witness for C6 on a concrete full cache of capacity 2: the hit on `"a"`
moves it to the back, and the subsequent fresh insertion of `"c"` evicts
`"b"` (the LRU) while `"a"` survives. -/
theorem encode_cache_lru_witness :
    (get_cached_image_b64 [("a", "1"), ("b", "2")] (some "a")).1 = some "1"
    ∧ (get_cached_image_b64 [("a", "1"), ("b", "2")] (some "a")).2.getLast?
        = some ("a", "1")
    ∧ set_cached_image_b64 2 [("a", "1"), ("b", "2")] (some "c") "3"
        = [("b", "2"), ("c", "3")]
    ∧ "a" ∈ (set_cached_image_b64 2
        (get_cached_image_b64 [("a", "1"), ("b", "2")] (some "a")).2
        (some "c") "3").map Prod.fst := by
  have h := encode_cache_lru 2 [("a", "1"), ("b", "2")] "a" "1" (by decide)
  have h4 := h.2.2.2.1 (by decide) (by decide)
  refine ⟨h4.1, h4.2, ?_, ?_⟩
  · have h5 := encode_cache_lru 2 [("a", "1"), ("b", "2")] "c" "3" (by decide)
    have := h5.2.2.2.2.1 (by decide) (by decide) (by decide) (by decide)
      (by decide)
    simpa using this
  · exact h.2.2.2.2.2 "c" "3" (by decide) (by decide) (by decide) (by decide)
      (by decide) (by decide) (by decide)

theorem get_cached_snd_subset (c : EncCache) (key : Option String) :
    ∀ kv ∈ (get_cached_image_b64 c key).2, kv ∈ c := by
  rcases key with _ | k
  · exact fun kv h => h
  · dsimp only [get_cached_image_b64]
    by_cases hk : k = ""
    · rw [if_pos hk]
      exact fun kv h => h
    · rw [if_neg hk]
      cases hv : c.lookup k with
      | none => exact fun kv h => h
      | some v =>
        dsimp only
        intro kv hkv
        rcases List.mem_append.mp hkv with h | h
        · exact List.mem_of_mem_filter h
        · cases List.mem_singleton.mp h
          exact lookup_mem hv

theorem set_cached_mem (cap : ℕ) (c : EncCache) (key : Option String)
    (v : String) : ∀ kv ∈ set_cached_image_b64 cap c key v,
      kv ∈ c ∨ ∃ k, key = some k ∧ kv = (k, v) := by
  rcases key with _ | k
  · exact fun kv h => Or.inl h
  · dsimp only [set_cached_image_b64]
    by_cases hk : k = "" ∨ v = ""
    · rw [if_pos hk]
      exact fun kv h => Or.inl h
    · rw [if_neg hk]
      intro kv hkv
      have h1 := List.drop_subset _ _ hkv
      rcases List.mem_append.mp h1 with h | h
      · exact Or.inl (List.mem_of_mem_filter h)
      · exact Or.inr ⟨k, rfl, List.mem_singleton.mp h⟩

theorem get_cached_hit_exists {S : Type} (hashFn : S → Option String)
    (c : EncCache) (s : S) (v : String)
    (hg : (get_cached_image_b64 c (hashFn s)).1 = some v) :
    ∃ kk, hashFn s = some kk ∧ (kk, v) ∈ c := by
  rcases hks : hashFn s with _ | kk
  · rw [hks] at hg
    cases hg
  · rw [hks] at hg
    dsimp only [get_cached_image_b64] at hg
    by_cases hk0 : kk = ""
    · rw [if_pos hk0] at hg
      cases hg
    · rw [if_neg hk0] at hg
      cases hl : c.lookup kk with
      | none =>
        rw [hl] at hg
        cases hg
      | some v2 =>
        rw [hl] at hg
        cases hg
        exact ⟨kk, rfl, lookup_mem hl⟩

theorem prepSamples_spec {S : Type} (hashFn : S → Option String)
    (enc : S → String) (cap : ℕ)
    (hcoll : ∀ a b kk, hashFn a = some kk → hashFn b = some kk →
      enc a = enc b) :
    ∀ (ss : List S) (acc : List String) (c : EncCache),
      cacheConsistent hashFn enc c →
      (prepSamples hashFn enc cap ss acc c).1 = acc ++ ss.map enc
      ∧ cacheConsistent hashFn enc (prepSamples hashFn enc cap ss acc c).2 := by
  intro ss
  induction ss with
  | nil => exact fun acc c hc => ⟨by simp [prepSamples], hc⟩
  | cons s ss ih =>
    intro acc c hc
    dsimp only [prepSamples]
    cases hg : (get_cached_image_b64 c (hashFn s)).1 with
    | none =>
      dsimp only
      have hc2 : cacheConsistent hashFn enc
          (set_cached_image_b64 cap (get_cached_image_b64 c (hashFn s)).2
            (hashFn s) (enc s)) := by
        intro kv hkv
        rcases set_cached_mem _ _ _ _ kv hkv with h | ⟨kk, hkk, hkv2⟩
        · exact hc kv (get_cached_snd_subset c (hashFn s) kv h)
        · subst hkv2
          exact ⟨s, hkk, rfl⟩
      have hrec := ih (acc ++ [enc s]) _ hc2
      refine ⟨?_, hrec.2⟩
      rw [hrec.1]
      simp
    | some v =>
      dsimp only
      have hvenc : v = enc s := by
        rcases get_cached_hit_exists hashFn c s v hg with ⟨kk, hks, hmem⟩
        rcases hc _ hmem with ⟨s2, hs2, hs2e⟩
        have hs2' : hashFn s2 = some kk := hs2
        have hs2e' : enc s2 = v := hs2e
        rw [← hs2e']
        exact hcoll s2 s kk hs2' hks
      have hc2 : cacheConsistent hashFn enc
          (get_cached_image_b64 c (hashFn s)).2 :=
        fun kv h => hc kv (get_cached_snd_subset _ _ kv h)
      have hrec := ih (acc ++ [v]) _ hc2
      refine ⟨?_, hrec.2⟩
      rw [hrec.1, hvenc]
      simp

theorem prepTensors_spec {S T : Type} (hashFn : S → Option String)
    (enc : S → String) (extract : T → List S) (cap : ℕ)
    (hcoll : ∀ a b kk, hashFn a = some kk → hashFn b = some kk →
      enc a = enc b) :
    ∀ (ts : List (Option T)) (acc : List String) (c : EncCache),
      cacheConsistent hashFn enc c →
      (prepTensors hashFn enc extract cap ts acc c).1
        = acc ++ (ts.reduceOption.flatMap extract).map enc
      ∧ cacheConsistent hashFn enc
          (prepTensors hashFn enc extract cap ts acc c).2 := by
  intro ts
  induction ts with
  | nil => exact fun acc c hc => ⟨by simp [prepTensors], hc⟩
  | cons t ts ih =>
    intro acc c hc
    rcases t with _ | t
    · have hrec := ih acc c hc
      refine ⟨?_, hrec.2⟩
      rw [show prepTensors hashFn enc extract cap (none :: ts) acc c
          = prepTensors hashFn enc extract cap ts acc c from rfl, hrec.1]
      simp [List.reduceOption]
    · dsimp only [prepTensors]
      have hsamp := prepSamples_spec hashFn enc cap hcoll (extract t) acc c hc
      have hrec := ih (prepSamples hashFn enc cap (extract t) acc c).1
        (prepSamples hashFn enc cap (extract t) acc c).2 hsamp.2
      refine ⟨?_, hrec.2⟩
      rw [hrec.1, hsamp.1]
      simp [List.reduceOption]

/-- C7: `prepare_input_images` returns exactly the encodings obtained by
applying `tensor_to_base64` directly to each extracted sample in order, for
every starting cache state satisfying the reachable-cache invariant
`cacheConsistent` (every binding hashes and encodes some sample; the empty
cache trivially satisfies it and both cache operations preserve it, as the
second conjunct shows).  `hcoll` states that the content hash does not
confuse samples with different encodings — the collision-freedom the code
relies on for SHA-1. -/
theorem prepare_input_images_cache_transparent {S T : Type}
    (hashFn : S → Option String) (enc : S → String) (extract : T → List S)
    (cap : ℕ) (tensors : List (Option T)) (c : EncCache)
    (hcoll : ∀ a b kk, hashFn a = some kk → hashFn b = some kk →
      enc a = enc b)
    (hc : cacheConsistent hashFn enc c) :
    (prepare_input_images hashFn enc extract cap tensors c).1
      = prepare_input_images_direct enc extract tensors
    ∧ cacheConsistent hashFn enc
        (prepare_input_images hashFn enc extract cap tensors c).2 := by
  dsimp only [prepare_input_images]
  by_cases he : tensors.isEmpty
  · rw [if_pos he]
    rcases tensors with _ | ⟨t, ts⟩
    · exact ⟨rfl, hc⟩
    · cases he
  · rw [if_neg he]
    have h := prepTensors_spec hashFn enc extract cap hcoll tensors [] c hc
    refine ⟨?_, h.2⟩
    rw [h.1]
    simp [prepare_input_images_direct]

/-- Witness for C7: a concrete run over `ℕ`-samples with a constant hash and
encoder, starting from the empty cache. -/
theorem prepare_input_images_cache_transparent_witness :
    (prepare_input_images (fun _ : ℕ => some "h") (fun _ : ℕ => "e")
      (fun t : ℕ => [t]) 16 [some 1, none, some 2] []).1 = ["e", "e"] := by
  have h := prepare_input_images_cache_transparent
    (fun _ : ℕ => some "h") (fun _ : ℕ => "e") (fun t : ℕ => [t]) 16
    [some 1, none, some 2] []
    (fun _ _ _ _ _ => rfl)
    (fun kv hkv => absurd hkv (List.not_mem_nil kv))
  rw [h.1]
  rfl

theorem generate_single_image_index (i : ℕ) (seed : ℤ) (prompt aspect : String)
    (image_size : Option String) (top_p : ℚ) (imgs : List String)
    (net : JobNet) :
    (generate_single_image i seed prompt aspect image_size top_p imgs
      net).1.index = i := by
  dsimp only [generate_single_image]
  cases create_request_data prompt seed aspect top_p imgs image_size with
  | error msg => rfl
  | ok rd =>
    cases net with
    | raised msg => rfl
    | responded images text =>
      dsimp only
      by_cases h : images.isEmpty = true
      · rw [if_pos h]
      · rw [if_neg h]
        cases base64_to_tensor_parallel images with
        | error m => rfl
        | ok st => rfl

theorem collect_results_true {τ : Type} (worker : τ → JobResult × Bool) :
    ∀ l : List τ, collect_results worker true l = l.map worker := by
  intro l
  induction l with
  | nil => rfl
  | cons t ts ih =>
    show worker t :: collect_results worker true ts = worker t :: ts.map worker
    rw [ih]

theorem run_true_eq {τ : Type} (tasks : List τ) (worker : τ → JobResult × Bool)
    (bs aw : ℕ) (completed : List τ) (hbs : bs ≠ 0) :
    BatchGenerationRunner_run tasks worker bs aw true completed
      = (if 1 < aw ∧ 1 < bs then completed else tasks).map worker := by
  dsimp only [BatchGenerationRunner_run]
  rw [if_neg hbs]
  by_cases h : 1 < aw ∧ 1 < bs
  · rw [if_pos h, if_pos h, collect_results_true]
  · rw [if_neg h, if_neg h, collect_results_true]

/-- Embedding of `generate_images` on a non-empty batch, with the runner expanded. -/
theorem generate_images_eq (N : ℕ) (prompt aspect : String)
    (image_size : Option String) (top_p : ℚ) (seedOf : ℕ → ℤ)
    (input_images_b64 : List String) (net : ℕ → JobNet) (aw : ℕ)
    (completed : List ℕ) (hN : N ≠ 0) :
    generate_images N prompt aspect image_size top_p seedOf input_images_b64
        net aw completed
      = (let L := if 1 < aw ∧ 1 < N then completed else List.range N
         let raw := L.map fun i => generate_single_image i (seedOf i) prompt
           aspect image_size top_p input_images_b64 (net i)
         let results := raw.map Prod.fst
         (if results.isEmpty then none
          else some (List.insertionSort jobIndexLe results),
          (raw.filter fun r => r.2).length)) := by
  dsimp only [generate_images]
  rw [run_true_eq _ _ _ _ _ hN]
  split <;> split <;> rfl

theorem isEmpty_false_of_length_pos {α : Type} {l : List α}
    (h : 0 < l.length) : l.isEmpty = false := by
  cases l with
  | nil => simp at h
  | cons a as => rfl

theorem sorted_le_range (n : ℕ) : (List.range n).Sorted (· ≤ ·) :=
  List.Pairwise.imp (fun h => le_of_lt h) (List.pairwise_lt_range n)

/-- C2: for every task list of length `N ≥ 1` run with
`continue_on_error = true` and no cancellation, and for every completion
order of the futures (any permutation of the tasks), the batch run returns
exactly `N` results whose `index` fields are exactly `0..N-1` — each unique,
in `[0, N)`, and sorted ascending in the returned list. -/
theorem batch_results_complete_sorted (N : ℕ) (hN : 1 ≤ N)
    (prompt aspect : String) (image_size : Option String) (top_p : ℚ)
    (seedOf : ℕ → ℤ) (input_images_b64 : List String) (net : ℕ → JobNet)
    (actual_workers : ℕ) (completed : List ℕ)
    (hperm : completed.Perm (List.range N)) :
    ∃ rs, (generate_images N prompt aspect image_size top_p seedOf
        input_images_b64 net actual_workers completed).1 = some rs
      ∧ rs.length = N
      ∧ rs.map JobResult.index = List.range N
      ∧ (rs.map JobResult.index).Nodup
      ∧ (∀ r ∈ rs, r.index < N)
      ∧ (rs.map JobResult.index).Sorted (· ≤ ·) := by
  rw [generate_images_eq _ _ _ _ _ _ _ _ _ _ (by omega)]
  set worker := fun i => generate_single_image i (seedOf i) prompt aspect
    image_size top_p input_images_b64 (net i) with hw
  set L := if 1 < actual_workers ∧ 1 < N then completed else List.range N
    with hL
  have hLperm : L.Perm (List.range N) := by
    by_cases h : 1 < actual_workers ∧ 1 < N
    · rw [hL, if_pos h]
      exact hperm
    · rw [hL, if_neg h]
  have hLlen : L.length = N := by
    rw [hLperm.length_eq, List.length_range]
  set results := (L.map worker).map Prod.fst with hres
  have hmapidx : results.map JobResult.index = L := by
    rw [hres, List.map_map, List.map_map]
    have hfun : ∀ i ∈ L, (JobResult.index ∘ Prod.fst ∘ worker) i = i := by
      intro i _
      exact generate_single_image_index i (seedOf i) prompt aspect image_size
        top_p input_images_b64 (net i)
    calc L.map (JobResult.index ∘ Prod.fst ∘ worker)
        = L.map id := List.map_congr_left hfun
      _ = L := List.map_id L
  have hreslen : results.length = N := by
    rw [hres]
    simp [hLlen]
  have hnonempty : results.isEmpty = false :=
    isEmpty_false_of_length_pos (by omega)
  refine ⟨List.insertionSort jobIndexLe results, ?_, ?_, ?_, ?_, ?_, ?_⟩
  · dsimp only
    rw [hnonempty]
    rfl
  · rw [(List.perm_insertionSort jobIndexLe results).length_eq, hreslen]
  · apply List.eq_of_perm_of_sorted
      (r := fun a b : ℕ => a ≤ b)
    · exact (((List.perm_insertionSort jobIndexLe results).map
        JobResult.index).trans (hmapidx ▸ hLperm))
    · exact List.pairwise_map.mpr (List.sorted_insertionSort jobIndexLe results)
    · exact sorted_le_range N
  · have h := List.eq_of_perm_of_sorted (r := fun a b : ℕ => a ≤ b)
      (((List.perm_insertionSort jobIndexLe results).map JobResult.index).trans
        (hmapidx ▸ hLperm))
      (List.pairwise_map.mpr (List.sorted_insertionSort jobIndexLe results))
      (sorted_le_range N)
    rw [h]
    exact List.nodup_range N
  · intro r hr
    have h := List.eq_of_perm_of_sorted (r := fun a b : ℕ => a ≤ b)
      (((List.perm_insertionSort jobIndexLe results).map JobResult.index).trans
        (hmapidx ▸ hLperm))
      (List.pairwise_map.mpr (List.sorted_insertionSort jobIndexLe results))
      (sorted_le_range N)
    have : r.index ∈ List.range N := by
      rw [← h]
      exact List.mem_map_of_mem JobResult.index hr
    exact List.mem_range.mp this
  · have h := List.eq_of_perm_of_sorted (r := fun a b : ℕ => a ≤ b)
      (((List.perm_insertionSort jobIndexLe results).map JobResult.index).trans
        (hmapidx ▸ hLperm))
      (List.pairwise_map.mpr (List.sorted_insertionSort jobIndexLe results))
      (sorted_le_range N)
    rw [h]
    exact sorted_le_range N

/-- Witness for C2: three jobs whose futures complete in the order 2, 0, 1
still yield three results indexed 0, 1, 2 in ascending order. -/
theorem batch_results_complete_sorted_witness :
    ∃ rs, (generate_images 3 "p" "Auto" (some "2K") 1 (fun _ => -1) []
        (fun _ => JobNet.responded [] "t") 4 [2, 0, 1]).1 = some rs
      ∧ rs.length = 3
      ∧ rs.map JobResult.index = List.range 3
      ∧ (rs.map JobResult.index).Nodup
      ∧ (∀ r ∈ rs, r.index < 3)
      ∧ (rs.map JobResult.index).Sorted (· ≤ ·) :=
  batch_results_complete_sorted 3 (by decide) "p" "Auto" (some "2K") 1
    (fun _ => -1) [] (fun _ => JobNet.responded [] "t") 4 [2, 0, 1] (by decide)

theorem generate_single_image_config_error (i : ℕ) (seed : ℤ)
    (prompt aspect : String) (image_size : Option String) (top_p : ℚ)
    (net : JobNet) (hp : pyStrip prompt = "") :
    generate_single_image i seed prompt aspect image_size top_p [] net
      = (build_failure_result i seed configErrorMessage, false) := by
  dsimp only [generate_single_image, create_request_data]
  rw [if_pos ⟨hp, rfl⟩]
  rfl

/-- C9 counterexample: a batch of one job with a whitespace prompt and no
input images does not raise before dispatch — the job is dispatched, runs,
and the `ValueError` of `create_request_data` is caught inside the worker
and returned as a failed `JobResult` (the pipeline returns a normal result
list), with no network call issued.  The claimed pre-dispatch `ValueError`
never escapes `generate_images`. -/
theorem config_error_not_before_dispatch_cex :
    generate_images 1 "  " "Auto" (some "2K") 1 (fun _ => -1) []
      (fun _ => JobNet.responded [] "") 4 [0]
      = (some [build_failure_result 0 (-1) configErrorMessage], 0) := by
  rfl

/-- C9 amended: when the prompt strips to empty and there are no input
images, every job of the batch is still dispatched; inside each worker
`create_request_data` raises `ValueError` before `send_request`, the error
is caught and becomes that job's failed `JobResult` carrying the
configuration-error message, and no network call is issued by any job. -/
theorem config_error_inside_worker (N : ℕ) (hN : 1 ≤ N)
    (prompt aspect : String) (image_size : Option String) (top_p : ℚ)
    (seedOf : ℕ → ℤ) (net : ℕ → JobNet) (aw : ℕ) (completed : List ℕ)
    (hperm : completed.Perm (List.range N)) (hp : pyStrip prompt = "") :
    ∃ rs, (generate_images N prompt aspect image_size top_p seedOf [] net aw
        completed).1 = some rs
      ∧ rs.length = N
      ∧ (∀ r ∈ rs, r.success = false ∧ r.error = some configErrorMessage)
      ∧ (generate_images N prompt aspect image_size top_p seedOf [] net aw
          completed).2 = 0 := by
  rw [generate_images_eq _ _ _ _ _ _ _ _ _ _ (by omega)]
  set L := if 1 < aw ∧ 1 < N then completed else List.range N with hL
  have hLlen : L.length = N := by
    by_cases h : 1 < aw ∧ 1 < N
    · rw [hL, if_pos h, hperm.length_eq, List.length_range]
    · rw [hL, if_neg h, List.length_range]
  have hmap : (L.map fun i => generate_single_image i (seedOf i) prompt aspect
      image_size top_p [] (net i))
      = L.map fun i => (build_failure_result i (seedOf i) configErrorMessage,
          false) :=
    List.map_congr_left fun i _ =>
      generate_single_image_config_error i (seedOf i) prompt aspect image_size
        top_p (net i) hp
  dsimp only
  rw [hmap]
  have hreslen : ((L.map fun i =>
      (build_failure_result i (seedOf i) configErrorMessage, false)).map
        Prod.fst).length = N := by
    simp [hLlen]
  rw [isEmpty_false_of_length_pos (by omega)]
  refine ⟨_, rfl, ?_, ?_, ?_⟩
  · rw [(List.perm_insertionSort jobIndexLe _).length_eq, hreslen]
  · intro r hr
    have hr2 := (List.perm_insertionSort jobIndexLe _).mem_iff.mp hr
    rcases List.mem_map.mp hr2 with ⟨p, hp2, hpr⟩
    rcases List.mem_map.mp hp2 with ⟨i, _, hip⟩
    rw [← hpr, ← hip]
    exact ⟨rfl, rfl⟩
  · rw [List.filter_eq_nil_iff.mpr ?_]
    · rfl
    · intro p hp2
      rcases List.mem_map.mp hp2 with ⟨i, _, hip⟩
      rw [← hip]
      simp

/-- Witness for C9's amended statement at a concrete one-job batch. -/
theorem config_error_inside_worker_witness :
    ∃ rs, (generate_images 1 " " "Auto" none 1 (fun _ => 0) []
        (fun _ => JobNet.responded [] "") 1 [0]).1 = some rs
      ∧ rs.length = 1
      ∧ (∀ r ∈ rs, r.success = false ∧ r.error = some configErrorMessage)
      ∧ (generate_images 1 " " "Auto" none 1 (fun _ => 0) []
          (fun _ => JobNet.responded [] "") 1 [0]).2 = 0 :=
  config_error_inside_worker 1 (by decide) " " "Auto" none 1 (fun _ => 0)
    (fun _ => JobNet.responded [] "") 1 [0] (by decide) (by decide)

/-- C1: in every iteration of the retry loop with a finite read timeout `r`
(attempt `k`, clock `t`, i.e. `elapsed = t`): if `r - elapsed ≤ 0` the loop
raises the terminal read-budget-exhausted error and issues no network call;
otherwise a network call is issued whose read timeout is exactly
`r - elapsed` and whose connect timeout is the fresh per-attempt `c`.  The
statement is generic over the loop state, so it covers every attempt
including the first (`k = 1`, `t = 0`). -/
theorem send_request_read_budget (c r : ℚ) (N fuel k : ℕ) (env : ℕ → Attempt)
    (t δ : ℚ) (st : LoopState) :
    (r - t ≤ 0 →
      sendLoop c (some r) N env (fuel + 1) k t δ st
        = (.budgetExhausted t r, []))
    ∧ (0 < r - t →
      ∃ rest, (sendLoop c (some r) N env (fuel + 1) k t δ st).2
        = { connect := c, read := some (r - t) } :: rest) := by
  constructor
  · intro h
    dsimp only [sendLoop]
    rw [if_pos h]
  · intro h
    dsimp only [sendLoop]
    rw [if_neg (not_le.mpr h)]
    exact ⟨_, rfl⟩

/-- Witness for C1: with `r = 420`, a clock of `500` is over budget (no call
issued, terminal error), while a clock of `0` issues a call carrying read
timeout exactly `420 - 0` and connect timeout `15`. -/
theorem send_request_read_budget_witness :
    sendLoop 15 (some 420) 2 (fun _ => ⟨1, .http 200 ⟨200, .notDict, ""⟩⟩)
        2 1 500 2 ⟨none, none⟩ = (.budgetExhausted 500 420, [])
    ∧ ∃ rest, (sendLoop 15 (some 420) 2
        (fun _ => ⟨1, .http 200 ⟨200, .notDict, ""⟩⟩) 2 1 0 2
        ⟨none, none⟩).2 = { connect := 15, read := some (420 - 0) } :: rest :=
  ⟨(send_request_read_budget 15 420 2 1 1 _ 500 2 _).1 (by norm_num),
   (send_request_read_budget 15 420 2 1 1 _ 0 2 _).2 (by norm_num)⟩

/-- C4: a transport failure classified as read-phase — a read timeout
(`requests.Timeout` that is neither `ConnectTimeout` nor `ConnectionError`),
a remote reset/broken-pipe/aborted connection (`ConnectionError` text
keyword), or an attempt whose duration exceeded the connect-timeout window
`c + 1` — makes the loop raise a terminal error at that very attempt, with
no further network call, regardless of how many retry attempts remain
(`N` and `fuel` are arbitrary).  Only connect-phase failures
(`ConnectTimeout`/`ConnectionError` without those marks) are retried
(third conjunct). -/
theorem send_request_read_phase_never_retried (c : ℚ) (R : Option ℚ)
    (N fuel k : ℕ) (env : ℕ → Attempt) (t δ : ℚ) (st : LoopState)
    (d : ℚ) (iT iCT iCE kw : Bool) (lbl : String)
    (henv : env k = ⟨d, .transport iT iCT iCE kw lbl⟩)
    (hbudget : ∀ r, R = some r → 0 < r - t) :
    ((iT && !iCT && !iCE) = true →
      sendLoop c R N env (fuel + 1) k t δ st
        = (.readTimeoutTerminal d, [⟨c, R.map fun r => r - t⟩]))
    ∧ ((iT && !iCT && !iCE) = false → ((iCE && kw) = true ∨ c + 1 < d) →
      sendLoop c R N env (fuel + 1) k t δ st
        = (.remoteDisconnectTerminal d, [⟨c, R.map fun r => r - t⟩]))
    ∧ ((iT && !iCT && !iCE) = false → (iCE && kw) = false → ¬ c + 1 < d →
      (iCT || iCE) = true → k < N →
      sendLoop c R N env (fuel + 1) k t δ st
        = (let next := sendLoop c R N env fuel (k + 1) (t + d + δ)
             (δ * (3 / 2)) { phase := some Phase.connect, label := some lbl }
           (next.1, ⟨c, R.map fun r => r - t⟩ :: next.2))) := by
  refine ⟨?_, ?_, ?_⟩
  · intro hread
    rcases R with _ | r
    · dsimp only [sendLoop]
      rw [henv]
      dsimp only
      rw [hread]
      rfl
    · dsimp only [sendLoop]
      rw [if_neg (not_le.mpr (hbudget r rfl))]
      rw [henv]
      dsimp only
      rw [hread]
      rfl
  · intro hread hrc
    rcases R with _ | r
    · dsimp only [sendLoop]
      rw [henv]
      dsimp only
      rw [hread]
      rcases hrc with hkw | hlt
      · rw [hkw]
        rfl
      · rw [decide_eq_true hlt, Bool.or_true]
        rfl
    · dsimp only [sendLoop]
      rw [if_neg (not_le.mpr (hbudget r rfl))]
      rw [henv]
      dsimp only
      rw [hread]
      rcases hrc with hkw | hlt
      · rw [hkw]
        rfl
      · rw [decide_eq_true hlt, Bool.or_true]
        rfl
  · intro hread hkw hnlt hor hkN
    rcases R with _ | r
    · dsimp only [sendLoop]
      rw [henv]
      dsimp only
      rw [hread, hkw, decide_eq_false hnlt, hor, if_pos hkN]
      rfl
    · dsimp only [sendLoop]
      rw [if_neg (not_le.mpr (hbudget r rfl))]
      rw [henv]
      dsimp only
      rw [hread, hkw, decide_eq_false hnlt, hor, if_pos hkN]
      rfl

/-- Witness for C4: a pure read timeout at the first attempt is terminal
with one issued call even though a retry attempt remains; a clean connect
timeout is retried. -/
theorem send_request_read_phase_never_retried_witness :
    sendLoop 15 (some 420) 2
        (fun _ => ⟨30, .transport true false false false "ReadTimeout"⟩)
        2 1 0 2 ⟨none, none⟩
      = (.readTimeoutTerminal 30, [⟨15, some (420 - 0)⟩])
    ∧ sendLoop 15 (some 420) 2
        (fun _ => ⟨3, .transport true true true false "ConnectTimeout"⟩)
        2 1 0 2 ⟨none, none⟩
      = (let next := sendLoop 15 (some 420) 2
           (fun _ => ⟨3, .transport true true true false "ConnectTimeout"⟩)
           1 2 (0 + 3 + 2) (2 * (3 / 2))
           { phase := some Phase.connect, label := some "ConnectTimeout" }
         (next.1, (⟨15, some (420 - 0)⟩ : IssuedCall) :: next.2)) :=
  ⟨(send_request_read_phase_never_retried 15 (some 420) 2 1 1 _ 0 2 ⟨none, none⟩
      30 true false false false "ReadTimeout" rfl
      (fun r hr => by cases hr; norm_num)).1 rfl,
   (send_request_read_phase_never_retried 15 (some 420) 2 1 1 _ 0 2 ⟨none, none⟩
      3 true true true false "ConnectTimeout" rfl
      (fun r hr => by cases hr; norm_num)).2.2 rfl rfl (by norm_num) rfl
      (by norm_num)⟩

theorem sendLoop_calls_le_fuel (c : ℚ) (R : Option ℚ) (N : ℕ)
    (env : ℕ → Attempt) :
    ∀ (fuel k : ℕ) (t δ : ℚ) (st : LoopState),
      (sendLoop c R N env fuel k t δ st).2.length ≤ fuel := by
  intro fuel
  induction fuel with
  | zero => intro k t δ st; exact Nat.le_refl 0
  | succ fuel ih =>
    intro k t δ st
    dsimp only [sendLoop]
    repeat' split
    all_goals dsimp only
    all_goals
      first
        | (simp
           done)
        | (simp only [List.length_cons]
           exact Nat.succ_le_succ (ih _ _ _ _))

/-- C3 (amended): an HTTP response makes the loop retry if and only if its
status is in the fixed set `{408, 409, 425, 429, 500, 502, 503, 504}` and
attempts remain (first conjunct: retry exactly under
`s ∈ RETRYABLE_STATUS ∧ k < N`, terminal `httpTerminal` for other 4xx/5xx
and for a retryable status on the final attempt, success below 400); the
executor issues at most `effective_max_retries` network attempts in total
(second and third conjuncts; the default is `_MAX_RETRIES = 2`, fourth
conjunct).  Amendment forced by the counterexample: when the final attempt
still returns a retryable status the terminal error carries the status code
and the sanitized response summary, not only an abstract error-type label;
only connect-phase exhaustion (fifth conjunct) surfaces the bare
exception-type label with a generic hint. -/
theorem send_request_retry_policy :
    (∀ (c : ℚ) (R : Option ℚ) (N fuel k : ℕ) (env : ℕ → Attempt) (t δ : ℚ)
       (st : LoopState) (d : ℚ) (s : ℕ) (resp : ApiResponse),
      env k = ⟨d, .http s resp⟩ → (∀ r, R = some r → 0 < r - t) →
      (s ∈ RETRYABLE_STATUS ∧ k < N →
        sendLoop c R N env (fuel + 1) k t δ st
          = (let next := sendLoop c R N env fuel (k + 1) (t + d + δ)
               (δ * (3 / 2)) { st with label := some "HTTPError" }
             (next.1, ⟨c, R.map fun r => r - t⟩ :: next.2)))
      ∧ (¬(s ∈ RETRYABLE_STATUS ∧ k < N) → 400 ≤ s → s < 600 →
        sendLoop c R N env (fuel + 1) k t δ st
          = (.httpTerminal s (summarize_error_response (some resp)),
             [⟨c, R.map fun r => r - t⟩]))
      ∧ (¬(s ∈ RETRYABLE_STATUS ∧ k < N) → s < 400 →
        sendLoop c R N env (fuel + 1) k t δ st
          = (.ok s, [⟨c, R.map fun r => r - t⟩])))
    ∧ (∀ (c : ℚ) (R : Option ℚ) (N : ℕ) (env : ℕ → Attempt) (fuel k : ℕ)
       (t δ : ℚ) (st : LoopState),
      (sendLoop c R N env fuel k t δ st).2.length ≤ fuel)
    ∧ (∀ (timeout : TimeoutArg) (mr : Option ℤ) (env : ℕ → Attempt)
       (cR : ℚ × Option ℚ), resolve_timeout timeout = .ok cR →
      send_request timeout mr env
        = .ok (sendLoop cR.1 cR.2 (effectiveMaxRetries mr) env
            (effectiveMaxRetries mr) 1 0 BASE_BACKOFF ⟨none, none⟩)
      ∧ (sendLoop cR.1 cR.2 (effectiveMaxRetries mr) env
            (effectiveMaxRetries mr) 1 0 BASE_BACKOFF ⟨none, none⟩).2.length
          ≤ effectiveMaxRetries mr)
    ∧ effectiveMaxRetries none = MAX_RETRIES
    ∧ (∀ (c : ℚ) (R : Option ℚ) (N fuel : ℕ) (env : ℕ → Attempt) (t δ : ℚ)
       (st : LoopState) (d : ℚ) (iT iCT iCE kw : Bool) (lbl : String),
      env N = ⟨d, .transport iT iCT iCE kw lbl⟩ →
      (∀ r, R = some r → 0 < r - t) →
      (iT && !iCT && !iCE) = false → (iCE && kw) = false → ¬ c + 1 < d →
      (iCT || iCE) = true →
      sendLoop c R N env (fuel + 1) N t δ st
        = (.connectExhausted lbl, [⟨c, R.map fun r => r - t⟩])) := by
  refine ⟨?_, ?_, ?_, rfl, ?_⟩
  · intro c R N fuel k env t δ st d s resp henv hbudget
    refine ⟨?_, ?_, ?_⟩
    · intro hsk
      rcases R with _ | r
      · dsimp only [sendLoop]
        rw [henv]
        dsimp only
        rw [if_pos hsk, if_pos hsk.2]
        rfl
      · dsimp only [sendLoop]
        rw [if_neg (not_le.mpr (hbudget r rfl))]
        rw [henv]
        dsimp only
        rw [if_pos hsk, if_pos hsk.2]
        rfl
    · intro hn h4 h6
      rcases R with _ | r
      · dsimp only [sendLoop]
        rw [henv]
        dsimp only
        rw [if_neg hn, if_pos ⟨h4, h6⟩]
        rfl
      · dsimp only [sendLoop]
        rw [if_neg (not_le.mpr (hbudget r rfl))]
        rw [henv]
        dsimp only
        rw [if_neg hn, if_pos ⟨h4, h6⟩]
        rfl
    · intro hn h4
      rcases R with _ | r
      · dsimp only [sendLoop]
        rw [henv]
        dsimp only
        rw [if_neg hn, if_neg (by omega)]
        rfl
      · dsimp only [sendLoop]
        rw [if_neg (not_le.mpr (hbudget r rfl))]
        rw [henv]
        dsimp only
        rw [if_neg hn, if_neg (by omega)]
        rfl
  · intro c R N env fuel k t δ st
    exact sendLoop_calls_le_fuel c R N env fuel k t δ st
  · intro timeout mr env cR hres
    rcases cR with ⟨cc, rr⟩
    refine ⟨?_, sendLoop_calls_le_fuel _ _ _ _ _ _ _ _ _⟩
    dsimp only [send_request]
    rw [hres]
    rfl
  · intro c R N fuel env t δ st d iT iCT iCE kw lbl henv hbudget hread hkw
      hnlt hor
    rcases R with _ | r
    · dsimp only [sendLoop]
      rw [henv]
      dsimp only
      rw [hread, hkw, decide_eq_false hnlt, hor, if_neg (lt_irrefl N)]
      rfl
    · dsimp only [sendLoop]
      rw [if_neg (not_le.mpr (hbudget r rfl))]
      rw [henv]
      dsimp only
      rw [hread, hkw, decide_eq_false hnlt, hor, if_neg (lt_irrefl N)]
      rfl

/-- C3 counterexample: with the default two attempts against a permanently
retryable 503, the exhaustion error raised by the loop is
`httpTerminal 503 upstreamSummary` — it carries the status code and the
upstream-derived summary, and is not one of the label-only exhaustion forms
(`connectExhausted`/`retriesExhausted`).  This falsifies the claim that the
terminal error after exhausting retries carries only an abstract
error-type label with no upstream detail. -/
theorem send_request_http_exhaustion_cex :
    sendLoop 15 (some 420) 2 cexEnv 2 1 0 2 ⟨none, none⟩
      = (.httpTerminal 503 upstreamSummary,
         [⟨15, some (420 - 0)⟩, ⟨15, some (420 - (0 + 1 + 2))⟩])
    ∧ (∀ lbl, SendOutcome.httpTerminal 503 upstreamSummary
        ≠ .connectExhausted lbl)
    ∧ (∀ lbl, SendOutcome.httpTerminal 503 upstreamSummary
        ≠ .retriesExhausted lbl) := by
  refine ⟨?_, fun lbl h => SendOutcome.noConfusion h,
    fun lbl h => SendOutcome.noConfusion h⟩
  have hsum : summarize_error_response (some cexResp) = upstreamSummary := by
    decide
  dsimp only [sendLoop, cexEnv]
  rw [if_neg (show ¬ (420:ℚ) - 0 ≤ 0 by norm_num)]
  rw [if_pos (show 503 ∈ RETRYABLE_STATUS ∧ 1 < 2 by decide)]
  rw [if_pos (show (1:ℕ) < 2 by decide)]
  rw [if_neg (show ¬ (420:ℚ) - (0 + 1 + 2) ≤ 0 by norm_num)]
  rw [if_neg (show ¬ (503 ∈ RETRYABLE_STATUS ∧ 1 + 1 < 2) by decide)]
  rw [if_pos (show 400 ≤ 503 ∧ 503 < 600 by decide)]
  rw [hsum]

/-- Witness for C3's amended statement: the retry arm at a concrete 503 on
attempt 1 of 2, the terminal arm at a concrete non-retryable 400, the
`send_request`-level call bound, and the connect-exhaustion label form at a
concrete final connect timeout. -/
theorem send_request_retry_policy_witness :
    sendLoop 15 (some 420) 2 cexEnv 2 1 0 2 ⟨none, none⟩
      = (let next := sendLoop 15 (some 420) 2 cexEnv 1 2 (0 + 1 + 2)
           (2 * (3 / 2)) ⟨none, some "HTTPError"⟩
         (next.1, (⟨15, some (420 - 0)⟩ : IssuedCall) :: next.2))
    ∧ sendLoop 15 (some 420) 2
        (fun _ => ⟨1, .http 400 ⟨400, .parseError, "bad"⟩⟩) 2 1 0 2
        ⟨none, none⟩
      = (.httpTerminal 400
          (summarize_error_response (some ⟨400, .parseError, "bad"⟩)),
         [⟨15, some (420 - 0)⟩])
    ∧ send_request .malformed none cexEnv
        = .ok (sendLoop 15 (some 420) 2 cexEnv 2 1 0 BASE_BACKOFF
            ⟨none, none⟩)
    ∧ (sendLoop 15 (some 420) 2 cexEnv 2 1 0 BASE_BACKOFF
        ⟨none, none⟩).2.length ≤ 2
    ∧ sendLoop 15 (some 420) 2
        (fun _ => ⟨3, .transport true true true false "ConnectTimeout"⟩)
        2 2 0 2 ⟨none, none⟩
      = (.connectExhausted "ConnectTimeout", [⟨15, some (420 - 0)⟩]) := by
  have hres : resolve_timeout .malformed = .ok ((15 : ℚ), some (420 : ℚ)) := by
    dsimp only [resolve_timeout, DEFAULT_CONNECT_TIMEOUT, DEFAULT_READ_TIMEOUT]
    norm_num [max_def]
    rfl
  have h3 := send_request_retry_policy.2.2.1 .malformed none cexEnv
    ((15 : ℚ), some (420 : ℚ)) hres
  refine ⟨?_, ?_, ?_, ?_, ?_⟩
  · exact (send_request_retry_policy.1 15 (some 420) 2 1 1 cexEnv 0 2
      ⟨none, none⟩ 1 503 cexResp rfl
      (fun r hr => by cases hr; norm_num)).1 (by decide)
  · exact (send_request_retry_policy.1 15 (some 420) 2 1 1 _ 0 2
      ⟨none, none⟩ 1 400 ⟨400, .parseError, "bad"⟩ rfl
      (fun r hr => by cases hr; norm_num)).2.1 (by decide) (by decide)
      (by decide)
  · exact h3.1
  · exact h3.2
  · exact send_request_retry_policy.2.2.2.2 15 (some 420) 2 1
      (fun _ => ⟨3, .transport true true true false "ConnectTimeout"⟩) 0 2
      ⟨none, none⟩ 3 true true true false "ConnectTimeout" rfl
      (fun r hr => by cases hr; norm_num) rfl rfl (by norm_num) rfl

/-- C10 counterexample: a 2-element timeout tuple whose first element is a
non-numeric string is a malformed timeout, but `_resolve_timeout` propagates
the `float()` `ValueError` instead of falling back to the defaults
`(15, 420)`. -/
theorem resolve_timeout_malformed_pair_cex :
    resolve_timeout (.pair .notNum .noneVal) = .error "ValueError"
    ∧ resolve_timeout (.pair .notNum .noneVal)
        ≠ .ok (DEFAULT_CONNECT_TIMEOUT, some DEFAULT_READ_TIMEOUT) :=
  ⟨rfl, fun h => Except.noConfusion h⟩

theorem resolve_timeout_ok_shape (t : TimeoutArg) (cR : ℚ × Option ℚ)
    (h : resolve_timeout t = .ok cR) :
    ∃ cc rr, cR = (max 1 cc, Option.map (max 5) rr) := by
  rcases t with x | ⟨a, b⟩ | _
  · dsimp only [resolve_timeout] at h
    repeat' split at h
    all_goals exact ⟨_, _, (Except.ok.inj h).symm⟩
  · rcases a with _ | x | _ <;> rcases b with _ | y | _ <;>
      dsimp only [resolve_timeout, elemTruthy, elemFloat] at h <;>
      repeat' split at h
    all_goals
      first
        | exact Except.noConfusion h
        | exact ⟨_, _, (Except.ok.inj h).symm⟩
  · dsimp only [resolve_timeout] at h
    exact ⟨_, _, (Except.ok.inj h).symm⟩

/-- C10 (amended): a positive scalar timeout is used for both connect and
read before clamping; a zero/negative scalar and a non-pair, non-number
timeout fall back to the defaults of 15 s connect and 420 s read; a
2-element tuple with second element `None` yields an unlimited read timeout;
and every successfully resolved pair satisfies `connect ≥ 1` and
`read = none` or `read ≥ 5`.  Amendment forced by the counterexample: a
2-element tuple containing a non-numeric element raises the `float()`
conversion error instead of falling back to the defaults. -/
theorem resolve_timeout_spec :
    (∀ x : ℚ, 0 < x →
      resolve_timeout (.scalar x) = .ok (max 1 x, some (max 5 x)))
    ∧ (∀ x : ℚ, ¬ 0 < x →
      resolve_timeout (.scalar x) = .ok (15, some 420))
    ∧ resolve_timeout .malformed = .ok (15, some 420)
    ∧ (∀ a : TimeoutElem, ∀ cR : ℚ × Option ℚ,
        resolve_timeout (.pair a .noneVal) = .ok cR → cR.2 = none)
    ∧ (∀ (t : TimeoutArg) (cR : ℚ × Option ℚ), resolve_timeout t = .ok cR →
        1 ≤ cR.1 ∧ ∀ rv ∈ cR.2, 5 ≤ rv) := by
  have hdef : resolve_timeout .malformed = .ok (15, some 420) := by
    dsimp only [resolve_timeout, DEFAULT_CONNECT_TIMEOUT, DEFAULT_READ_TIMEOUT]
    norm_num [max_def]
    rfl
  refine ⟨?_, ?_, hdef, ?_, ?_⟩
  · intro x hx
    dsimp only [resolve_timeout]
    rw [if_pos hx]
    rfl
  · intro x hx
    dsimp only [resolve_timeout, DEFAULT_CONNECT_TIMEOUT, DEFAULT_READ_TIMEOUT]
    rw [if_neg hx]
    norm_num [max_def]
    rfl
  · intro a cR h
    rcases a with _ | x | _ <;>
      dsimp only [resolve_timeout, elemTruthy, elemFloat] at h <;>
      repeat' split at h
    all_goals
      first
        | exact Except.noConfusion h
        | (cases Except.ok.inj h; rfl)
  · intro t cR h
    obtain ⟨cc, rr, rfl⟩ := resolve_timeout_ok_shape t cR h
    refine ⟨le_max_left 1 cc, ?_⟩
    rcases rr with _ | y
    · intro rv hrv
      simp at hrv
    · intro rv hrv
      have hy : max 5 y = rv := by simpa using hrv
      rw [← hy]
      exact le_max_left 5 y

/-- Witness for C10's amended statement at concrete timeouts. -/
theorem resolve_timeout_spec_witness :
    resolve_timeout (.scalar 30) = .ok (max 1 30, some (max 5 30))
    ∧ resolve_timeout (.scalar 0) = .ok (15, some 420)
    ∧ ((max (1 : ℚ) 15, (none : Option ℚ)).2 = none)
    ∧ (1 ≤ (max (1 : ℚ) 30) ∧ ∀ rv ∈ some (max (5 : ℚ) 30), 5 ≤ rv) := by
  have h1 := resolve_timeout_spec.1 30 (by norm_num)
  exact ⟨h1, resolve_timeout_spec.2.1 0 (by norm_num),
    resolve_timeout_spec.2.2.2.1 .noneVal (max 1 15, none) rfl,
    resolve_timeout_spec.2.2.2.2 (.scalar 30) (max 1 30, some (max 5 30)) h1⟩
